import Mathlib

/-!
Shallow embedding of `src/ul2/src/momo1/model.py` (MosaicModel / ComposerMosaicModel).

Conventions of the embedding:
* Floating-point values are modelled as exact rationals (`ℚ`).  The value
  `float("-inf")` used to forbid attention pairs is modelled by a dedicated
  constructor of `BVal`, so "finite" means "not `BVal.negInf`".
* Tensors whose entries are only ever read pointwise (the attention-bias
  buffers and the activations flowing through the network) are modelled as
  total functions from indices; theorems carry the index bounds that the
  real tensors impose.  Tensors that the code inspects as whole objects
  (the `attention_mask` / `bidirectional_mask` / `input_ids` arguments,
  whose shapes are asserted) are modelled as `List (List ℕ)` rectangles.
* Python `assert` failures are modelled as `Except.error`.
* The numeric kernels supplied by the external torch / composer frameworks
  (dropout, layer norm, the fused attention kernel, GELU, the softmax
  cross-entropy kernel) are not code of this repository; they enter the
  embedding as opaque function parameters (`Primitives`, `BlockPrims`, and
  the per-row negative-log-likelihood kernel of `cross_entropy`).  Every
  piece of wiring written in `model.py` itself is translated explicitly.
-/

/-- A value of the additive attention-bias tensor: either the float
`-inf` used to forbid an attention pair, or a finite value. -/
inductive BVal where
  | negInf : BVal
  | val : ℚ → BVal
deriving DecidableEq

/-- An activation tensor indexed by (batch, seq, feature). -/
abbrev T3 := ℕ → ℕ → ℕ → ℚ

/-- An attention-bias tensor indexed by (batch, head, query, key). -/
abbrev T4B := ℕ → ℕ → ℕ → ℕ → BVal

/-- The configuration fields of `MosaicModel` that the modelled code reads.
`alibi_slope h` stands for the per-head scale
`1 / 2 ** ((h+1) * alibi_bias_max / n_heads)` of `alibi_bias` (model.py
lines 120-122); that power is computed in floating point and its exact
value never matters to the claims, so it is carried as an abstract
rational. -/
structure Config where
  d_model : ℕ
  n_heads : ℕ
  n_layers : ℕ
  max_seq_len : ℕ
  vocab_size : ℕ
  alibi : Bool
  alibi_slope : ℕ → ℚ
  embedding_fraction : ℚ

/-- Entry (head `hd`, query `q`, key `k`) of
`alibi_bias(n_heads, seq_len, full=True)` (model.py lines 112-123):
the distance `|k - q|`, negated, scaled by the per-head factor. -/
def alibi_bias (slope : ℕ → ℚ) (hd q k : ℕ) : ℚ :=
  -((((k : ℤ) - (q : ℤ)).natAbs : ℚ)) * slope hd

/-- The three tensors registered with `register_buffer` in
`MosaicModel.__init__` (model.py lines 202-209).  `alibi_mask` and
`zeros_mask` are read at (head, query, key); their leading broadcast
batch dimension of size 1 is dropped.  `causal_mask` is read at
(query, key); its two leading broadcast dimensions are dropped. -/
structure Buffers where
  alibi_mask : ℕ → ℕ → ℕ → ℚ
  zeros_mask : ℕ → ℕ → ℕ → ℚ
  causal_mask : ℕ → ℕ → Bool

/-- The buffer names registered in `MosaicModel.__init__`, in registration
order (model.py lines 203-209). -/
def registered_buffer_names : List String :=
  ["alibi_mask", "zeros_mask", "causal_mask"]

/-- The buffer contents set in `MosaicModel.__init__`:
`alibi_mask = alibi_bias(n_heads, max_seq_len, full=True, ...)`,
`zeros_mask = zeros_like(alibi_mask)`, and
`causal_mask = tril(ones(max_seq_len, max_seq_len))`, whose (q, k) entry
is true exactly when `k ≤ q`. -/
def initBuffers (cfg : Config) : Buffers where
  alibi_mask := fun hd q k => alibi_bias cfg.alibi_slope hd q k
  zeros_mask := fun _ _ _ => 0
  causal_mask := fun q k => decide (k ≤ q)

/-- Read entry (b, k) of a 2-D tensor modelled as a list of rows. -/
def entry (m : List (List ℕ)) (b k : ℕ) : ℕ :=
  (m.getD b []).getD k 0

/-- `torch.all` on a byte mask after `.bool()`: every entry is nonzero. -/
def tensor_all (m : List (List ℕ)) : Bool :=
  m.all (fun row => row.all (fun v => v != 0))

/-- `m` has tensor shape `[B, S]`. -/
def shape2 (m : List (List ℕ)) (B S : ℕ) : Prop :=
  m.length = B ∧ ∀ row ∈ m, row.length = S

instance (m : List (List ℕ)) (B S : ℕ) : Decidable (shape2 m B S) := by
  unfold shape2; infer_instance

/-- First stage of `build_attn_bias` (model.py lines 222-230): the boolean
mask from the causal buffer, optionally `logical_or`-ed with the
bidirectional mask.  `bidirectional_mask.unsqueeze(1).unsqueeze(1)` has
shape `[B, 1, 1, S]`, so under broadcasting it contributes its entry at
the KEY index; the result is read at (batch, query, key).  The shape
`assert` on line 228 is an `Except.error` here. -/
def base_mask (buf : Buffers) (batch_size seq_length : ℕ)
    (bidirectional_mask : Option (List (List ℕ))) :
    Except String (ℕ → ℕ → ℕ → Bool) :=
  match bidirectional_mask with
  | none => Except.ok (fun _ q k => buf.causal_mask q k)
  | some m =>
    if shape2 m batch_size seq_length then
      Except.ok (fun b q k => buf.causal_mask q k || (entry m b k != 0))
    else
      Except.error "bidirectional_mask shape mismatch"

/-- Second stage of `build_attn_bias` (model.py lines 232-237): when an
attention mask is given and is not all ones, `logical_and` the running
mask with it.  `attention_mask.unsqueeze(1).unsqueeze(1)` has shape
`[B, 1, 1, S]`, so it also contributes its entry at the KEY index.  The
shape `assert` on line 236 is an `Except.error` here; note that it is only
reached when the mask is not all ones. -/
def pad_mask (batch_size seq_length : ℕ)
    (attention_mask : Option (List (List ℕ)))
    (mask : ℕ → ℕ → ℕ → Bool) :
    Except String (ℕ → ℕ → ℕ → Bool) :=
  match attention_mask with
  | none => Except.ok mask
  | some a =>
    if tensor_all a then Except.ok mask
    else if shape2 a batch_size seq_length then
      Except.ok (fun b q k => mask b q k && (entry a b k != 0))
    else
      Except.error "attention_mask shape mismatch"

/-- `MosaicModel.build_attn_bias` (model.py lines 211-240).  The bias
template is the alibi buffer when `cfg.alibi` and the zeros buffer
otherwise; the final line `torch.where(mask, bias, float("-inf"))` keeps
the template where the mask is true and writes `-inf` elsewhere.  The
`[:seq_length, :seq_length]` slicing is index restriction in this
function model: theorems about the result only quantify over
`q, k < seq_length`. -/
def build_attn_bias (cfg : Config) (buf : Buffers)
    (batch_size seq_length : ℕ)
    (attention_mask bidirectional_mask : Option (List (List ℕ))) :
    Except String T4B :=
  let bias : ℕ → ℕ → ℕ → ℚ :=
    if cfg.alibi then buf.alibi_mask else buf.zeros_mask
  match base_mask buf batch_size seq_length bidirectional_mask with
  | Except.error e => Except.error e
  | Except.ok mask =>
    match pad_mask batch_size seq_length attention_mask mask with
    | Except.error e => Except.error e
    | Except.ok mask =>
      Except.ok (fun b hd q k =>
        if mask b q k then BVal.val (bias hd q k) else BVal.negInf)

/-- The learned parameter tensors of `MosaicModel` that the modelled wiring
reads directly: the token embedding `transformer.wte.weight` (read at
(token id, feature)) and the learned positional embedding
`transformer.wpe.weight` (read at (position, feature); only registered
when alibi is off, model.py lines 189-191). -/
structure Params where
  wte : ℕ → ℕ → ℚ
  wpe : ℕ → ℕ → ℚ

/-- The sublayers of one `GPTBlock` (model.py lines 143-171).  Layer norm,
the attention kernel, GELU/linear MLP and dropout are torch modules whose
numerics live outside this repository; each is an opaque tensor map here.
`attn` takes the block input and the additive attention bias (passed as
`attn_mask`) and returns the attention output (the first component of the
pair returned by the torch module). -/
structure BlockPrims where
  ln_1 : T3 → T3
  attn : T3 → T4B → T3
  ln_2 : T3 → T3
  mlp : T3 → T3
  resid_attn_dropout : T3 → T3
  resid_mlp_dropout : T3 → T3

/-- `GPTBlock.forward` (model.py lines 160-171): pre-norm residual wiring
`x + dropout(attn(ln_1 x))` then `x + dropout(mlp(ln_2 x))`. -/
def GPTBlock_forward (bp : BlockPrims) (x : T3) (attn_mask : T4B) : T3 :=
  let a := bp.ln_1 x
  let b := bp.attn a attn_mask
  let x1 : T3 := fun bb s d => x bb s d + bp.resid_attn_dropout b bb s d
  let m := bp.ln_2 x1
  let n := bp.mlp m
  fun bb s d => x1 bb s d + bp.resid_mlp_dropout n bb s d

/-- The opaque framework modules used directly by `MosaicModel.forward`:
the embedding dropout, the per-layer block sublayers, and the final layer
norm. -/
structure Primitives where
  emb_drop : T3 → T3
  blocks : ℕ → BlockPrims
  ln_f : T3 → T3

/-- The value-level embedding-fraction expression of model.py line 265,
`x * embedding_fraction + x.detach() * (1 - embedding_fraction)`;
`detach` is the identity on values (it only cuts the gradient). -/
def embedding_fraction_transform (f : ℚ) (x : T3) : T3 :=
  fun b s d => x b s d * f + x b s d * (1 - f)

/-- The embedding dropout step of `MosaicModel.forward`
(model.py lines 260-266): when `embedding_fraction == 1` the transform
is skipped entirely. -/
def embedding_step (cfg : Config) (drop : T3 → T3) (x : T3) : T3 :=
  if cfg.embedding_fraction = 1 then drop x
  else drop (embedding_fraction_transform cfg.embedding_fraction x)

/-- `F.linear(x, w, None)` on one feature row: output coordinate `v` is
the dot product of `x` with row `v` of `w`, and no bias is added. -/
def linear_no_bias (d_model : ℕ) (w : ℕ → ℕ → ℚ) (x : ℕ → ℚ) (v : ℕ) : ℚ :=
  ∑ d ∈ Finset.range d_model, x d * w v d

/-- `MosaicModel.forward` (model.py lines 242-271) up to and including the
final layer norm, together with the attention bias it built: the
`seq_len <= max_seq_len` assertion, token embedding, optional positional
embedding, the embedding-fraction/dropout step, the bias, the block
stack, and `ln_f`. -/
def hidden_states (cfg : Config) (p : Params) (prim : Primitives)
    (buf : Buffers) (input_ids : List (List ℕ))
    (attention_mask bidirectional_mask : Option (List (List ℕ))) :
    Except String (T3 × T4B) :=
  let B := input_ids.length
  let S := (input_ids.getD 0 []).length
  if S ≤ cfg.max_seq_len then
    let tok_emb : T3 := fun b s d => p.wte (entry input_ids b s) d
    let x : T3 :=
      if cfg.alibi then tok_emb
      else fun b s d => tok_emb b s d + p.wpe s d
    let x := embedding_step cfg prim.emb_drop x
    match build_attn_bias cfg buf B S attention_mask bidirectional_mask with
    | Except.error e => Except.error e
    | Except.ok attn_bias =>
      let x := (List.range cfg.n_layers).foldl
        (fun acc i => GPTBlock_forward (prim.blocks i) acc attn_bias) x
      Except.ok (prim.ln_f x, attn_bias)
  else
    Except.error "Cannot forward input: seq_len exceeds max_seq_len"

/-- The logits tensor returned by `MosaicModel.forward`: of shape
`[B, S, vocab]` normally, or `[N, vocab]` after the
`loss_generating_tokens` row selection. -/
inductive Act where
  | full : T3 → Act
  | sel : (ℕ → ℕ → ℚ) → Act

/-- The result of `MosaicModel.forward`: the logits, the attention bias
(also returned by the python function), and the model's buffer state
after the call. -/
structure ForwardOut where
  logits : Act
  attn_bias : T4B
  buffers : Buffers

/-- The row-major flattened positions `(b, s)` selected by
`x.view(-1, d)[loss_generating_tokens.view(-1)]` (model.py lines
273-278): the positions whose mask entry is nonzero, in row-major
order. -/
def selected_positions (B S : ℕ) (l : List (List ℕ)) : List (ℕ × ℕ) :=
  (((List.range B).map (fun b => (List.range S).map (fun s => (b, s)))).flatten).filter
    (fun bs => entry l bs.1 bs.2 != 0)

/-- `MosaicModel.forward` (model.py lines 242-282): the hidden-state
pipeline, the optional `loss_generating_tokens` row selection (whose
shape assertion on line 276 is an `Except.error`), and the weight-tied
output projection `F.linear(x, self.transformer.wte.weight, None)`. -/
def forward (cfg : Config) (p : Params) (prim : Primitives) (buf : Buffers)
    (input_ids : List (List ℕ))
    (attention_mask bidirectional_mask : Option (List (List ℕ)))
    (loss_generating_tokens : Option (List (List ℕ))) :
    Except String ForwardOut :=
  match hidden_states cfg p prim buf input_ids attention_mask bidirectional_mask with
  | Except.error e => Except.error e
  | Except.ok (x, attn_bias) =>
    match loss_generating_tokens with
    | none =>
      Except.ok
        { logits := Act.full (fun b s v => linear_no_bias cfg.d_model p.wte (x b s) v)
          attn_bias := attn_bias
          buffers := buf }
    | some l =>
      let B := input_ids.length
      let S := (input_ids.getD 0 []).length
      if shape2 l B S then
        let sel := selected_positions B S l
        Except.ok
          { logits := Act.sel (fun n v =>
              linear_no_bias cfg.d_model p.wte
                (fun d => x (sel.getD n (0, 0)).1 (sel.getD n (0, 0)).2 d) v)
            attn_bias := attn_bias
            buffers := buf }
      else
        Except.error "loss_generating_tokens shape mismatch"

/-- The keys of the `transformer` module dict built in
`MosaicModel.__init__` (model.py lines 189-197), in registration order:
`wte`, then `wpe` only when alibi is off, then `emb_drop`, `blocks`,
`ln_f`.  There is no output-projection module. -/
def transformer_module_names (cfg : Config) : List String :=
  ["wte"] ++ (if cfg.alibi then [] else ["wpe"]) ++ ["emb_drop", "blocks", "ln_f"]

/-- A scalar activation carrying its value and the sensitivity of the
final loss to the parameters feeding it (a forward-mode view of
autograd).  `torch.Tensor.detach` keeps the value and severs the
gradient. -/
structure Dual where
  val : ℚ
  grad : ℚ
deriving DecidableEq

/-- `x.detach()`: same value, no gradient flow. -/
def Dual.detach (x : Dual) : Dual := ⟨x.val, 0⟩

/-- Multiplying an activation by the constant `c` scales both the value
and the gradient by `c`. -/
def Dual.smul (c : ℚ) (x : Dual) : Dual := ⟨c * x.val, c * x.grad⟩

/-- Adding activations adds values and gradients. -/
def Dual.add (x y : Dual) : Dual := ⟨x.val + y.val, x.grad + y.grad⟩

/-- The embedding-fraction expression of model.py line 265 on dual
numbers: `x * f + x.detach() * (1 - f)`. -/
def embedding_fraction_dual (f : ℚ) (x : Dual) : Dual :=
  Dual.add (Dual.smul f x) (Dual.smul (1 - f) x.detach)

/-- Restore a flat list to the row shape of `shape`: row `i` of the result
takes as many elements as row `i` of `shape` has.  This models the
"restored to the original shape" step of `torch.roll` applied without a
`dims` argument. -/
def reshape_like : List (List ℤ) → List ℤ → List (List ℤ)
  | [], _ => []
  | row :: rest, flat => flat.take row.length :: reshape_like rest (flat.drop row.length)

/-- `ComposerMosaicModel.get_targets` (model.py lines 362-368) for a batch
without a `labels` key (the case the claims concern; the `labels` branch,
which returns a filtered 1-D tensor, is not modelled):
`targets = torch.roll(input_ids, shifts=-1)` — flatten, rotate left by
one, restore the shape — then `targets[:, -1] = -100`. -/
def get_targets (input_ids : List (List ℤ)) : List (List ℤ) :=
  let flat := input_ids.flatten
  let rolled := flat.drop 1 ++ flat.take 1
  (reshape_like input_ids rolled).map (fun row => row.set (row.length - 1) (-100))

/-- `F.cross_entropy(outputs, targets, ignore_index=ig)` over exact
rationals, with the per-row negative-log-likelihood kernel `nll` (a
floating-point softmax/log computation inside torch, outside this
repository) passed as an opaque function: the mean of `nll row target`
over the positions whose target differs from the ignore index. -/
def cross_entropy (nll : List ℚ → ℤ → ℚ) (outputs : List (List ℚ))
    (targets : List ℤ) (ignore_index : ℤ) : ℚ :=
  let kept := (outputs.zip targets).filter (fun pr => pr.2 != ignore_index)
  (kept.map (fun pr => nll pr.1 pr.2)).sum / (kept.length : ℚ)

/-- `ComposerMosaicModel.loss` (model.py lines 383-388) for a batch
without a `labels` key: targets from `get_targets`, the
`outputs.shape[0] == targets.shape[0]` assertion, then
`F.cross_entropy(outputs.view(-1, V), targets.view(-1),
ignore_index=-100)`. -/
def loss (nll : List ℚ → ℤ → ℚ) (outputs : List (List (List ℚ)))
    (input_ids : List (List ℤ)) : Except String ℚ :=
  let targets := get_targets input_ids
  if outputs.length = targets.length then
    Except.ok (cross_entropy nll outputs.flatten targets.flatten (-100))
  else
    Except.error "loss shape mismatch"

/-- The closed-form value computed by `ComposerMosaicModel.num_fwd_flops`
(model.py lines 402-410): `2 * n_params * max_seq_len` plus
`n_layers * 2 * 2 * (d_model * max_seq_len ** 2)`. -/
def flops_value (cfg : Config) (n_params : ℕ) : ℕ :=
  2 * n_params * cfg.max_seq_len +
    cfg.n_layers * 2 * 2 * (cfg.d_model * cfg.max_seq_len ^ 2)

/-- One access to the `num_fwd_flops` property (model.py lines 398-411),
with the private cache `self.__num_fwd_flops` threaded explicitly.
Python's `if self.__num_fwd_flops:` takes the cached path only when the
cache is neither `None` nor `0`; otherwise the value is recomputed and
stored.  Returns the value and the new cache state. -/
def num_fwd_flops (cfg : Config) (n_params : ℕ) :
    Option ℕ → ℕ × Option ℕ
  | some v =>
    if v ≠ 0 then (v, some v)
    else (flops_value cfg n_params, some (flops_value cfg n_params))
  | none => (flops_value cfg n_params, some (flops_value cfg n_params))

/-! Concrete fixtures used by the witness theorems. -/

/-- A tiny concrete configuration: one head, no layers, `max_seq_len = 2`,
alibi off, embedding fraction 1. -/
def Wcfg : Config :=
  { d_model := 1, n_heads := 1, n_layers := 0, max_seq_len := 2, vocab_size := 1
    alibi := false, alibi_slope := fun _ => 1, embedding_fraction := 1 }

/-- A tiny concrete configuration with alibi on and `max_seq_len = 1`. -/
def Wcfg4 : Config :=
  { d_model := 1, n_heads := 1, n_layers := 0, max_seq_len := 1, vocab_size := 1
    alibi := true, alibi_slope := fun _ => 1, embedding_fraction := 1 }

/-- Zero parameter tensors. -/
def Wp : Params := ⟨fun _ _ => 0, fun _ _ => 0⟩

/-- Identity sublayers for one block. -/
def Wbp : BlockPrims := ⟨id, fun x _ => x, id, id, id, id⟩

/-- Identity framework primitives. -/
def Wprim : Primitives := ⟨id, fun _ => Wbp, id⟩

/-- The bias returned by `build_attn_bias Wcfg (initBuffers Wcfg) 1 2`
with no masks. -/
def Wf1 : T4B := fun _ hd q k =>
  if (initBuffers Wcfg).causal_mask q k then
    BVal.val ((if Wcfg.alibi then (initBuffers Wcfg).alibi_mask
      else (initBuffers Wcfg).zeros_mask) hd q k)
  else BVal.negInf

/-- The bias returned by `build_attn_bias Wcfg (initBuffers Wcfg) 1 2`
with `bidirectional_mask = [[1, 1]]` and no attention mask. -/
def Wf2 : T4B := fun b hd q k =>
  if (initBuffers Wcfg).causal_mask q k || (entry [[1, 1]] b k != 0) then
    BVal.val ((if Wcfg.alibi then (initBuffers Wcfg).alibi_mask
      else (initBuffers Wcfg).zeros_mask) hd q k)
  else BVal.negInf

/-- The bias returned by `build_attn_bias Wcfg (initBuffers Wcfg) 1 2`
with `attention_mask = [[1, 0]]` and no bidirectional mask. -/
def Wf3 : T4B := fun b hd q k =>
  if (initBuffers Wcfg).causal_mask q k && (entry [[1, 0]] b k != 0) then
    BVal.val ((if Wcfg.alibi then (initBuffers Wcfg).alibi_mask
      else (initBuffers Wcfg).zeros_mask) hd q k)
  else BVal.negInf

/-- The final hidden states of the fixture forward pass
`forward Wcfg4 Wp Wprim (initBuffers Wcfg4) [[0]]`. -/
def Wx : T3 := fun b s d => Wp.wte (entry [[0]] b s) d

/-- The attention bias of the fixture forward pass. -/
def Wab : T4B := fun _ hd q k =>
  if (initBuffers Wcfg4).causal_mask q k then
    BVal.val ((if Wcfg4.alibi then (initBuffers Wcfg4).alibi_mask
      else (initBuffers Wcfg4).zeros_mask) hd q k)
  else BVal.negInf

/-- The result of the fixture forward pass. -/
def Wout4 : ForwardOut :=
  { logits := Act.full (fun b s v => linear_no_bias Wcfg4.d_model Wp.wte (Wx b s) v)
    attn_bias := Wab
    buffers := initBuffers Wcfg4 }

/-! Helper lemmas about the two masking stages. -/

/-- With no bidirectional mask the base mask is the causal buffer. -/
theorem base_mask_none (buf : Buffers) (B S : ℕ) :
    base_mask buf B S none = Except.ok (fun _ q k => buf.causal_mask q k) := rfl

/-- With a well-shaped bidirectional mask the base mask is the causal
buffer or-ed with the mask entry at the key index. -/
theorem base_mask_some_ok (buf : Buffers) {B S : ℕ} {m : List (List ℕ)}
    (h : shape2 m B S) :
    base_mask buf B S (some m) =
      Except.ok (fun b q k => buf.causal_mask q k || (entry m b k != 0)) := by
  simp [base_mask, h]

/-- With no attention mask the padding stage is the identity. -/
theorem pad_mask_none (B S : ℕ) (mask : ℕ → ℕ → ℕ → Bool) :
    pad_mask B S none mask = Except.ok mask := rfl

/-- With an all-ones attention mask the padding stage is skipped. -/
theorem pad_mask_all_ones (B S : ℕ) (a : List (List ℕ))
    (mask : ℕ → ℕ → ℕ → Bool) (h : tensor_all a = true) :
    pad_mask B S (some a) mask = Except.ok mask := by
  simp [pad_mask, h]

/-- With a not-all-ones, well-shaped attention mask the padding stage
and-s in the mask entry at the key index. -/
theorem pad_mask_not_all (B S : ℕ) (a : List (List ℕ))
    (mask : ℕ → ℕ → ℕ → Bool) (h : tensor_all a = false) (hs : shape2 a B S) :
    pad_mask B S (some a) mask =
      Except.ok (fun b q k => mask b q k && (entry a b k != 0)) := by
  simp [pad_mask, h, hs]

/-- C1: with `bidirectional_mask = None` and `attention_mask = None` and
`S ≤ max_seq_len`, the bias built by `build_attn_bias` on the buffers set
up in `__init__` is `-inf` at (query q, key k) exactly when `k > q`, and
for `k ≤ q` it is the finite alibi position-decay value when alibi is
enabled and `0` otherwise: each position may attend only to itself and
earlier positions. -/
theorem c1_causal_default (cfg : Config) (B S : ℕ) (f : T4B) (b hd q k : ℕ)
    (hS : S ≤ cfg.max_seq_len) (hq : q < S) (hk : k < S)
    (h : build_attn_bias cfg (initBuffers cfg) B S none none = Except.ok f) :
    (f b hd q k = BVal.negInf ↔ q < k) ∧
      (k ≤ q →
        f b hd q k =
          BVal.val (if cfg.alibi then alibi_bias cfg.alibi_slope hd q k else 0)) := by
  simp only [build_attn_bias, base_mask, pad_mask, Except.ok.injEq] at h
  subst h
  constructor
  · by_cases hkq : k ≤ q
    · simp [initBuffers, hkq, Nat.not_lt.mpr hkq]
    · simp [initBuffers, hkq, Nat.lt_of_not_le hkq]
  · intro hkq
    cases halibi : cfg.alibi <;>
      simp [initBuffers, hkq, halibi, alibi_bias]

/-- Witness for C1 at `Wcfg`, `B = 1`, `S = 2`, query 0, key 1. -/
theorem c1_witness :
    (Wf1 0 0 0 1 = BVal.negInf ↔ (0 : ℕ) < 1) ∧
      ((1 : ℕ) ≤ 0 →
        Wf1 0 0 0 1 =
          BVal.val (if Wcfg.alibi then alibi_bias Wcfg.alibi_slope 0 0 1 else 0)) :=
  c1_causal_default Wcfg 1 2 Wf1 0 0 0 1 (by decide) (by decide) (by decide) rfl

/-- C10: passing an all-ones attention mask to `build_attn_bias` is
equivalent to passing `attention_mask = None`: for every batch size,
sequence length, bidirectional mask and buffer state the two calls
return the same result. -/
theorem c10_all_ones_equiv (cfg : Config) (buf : Buffers) (B S : ℕ)
    (a : List (List ℕ)) (bm : Option (List (List ℕ)))
    (h : tensor_all a = true) :
    build_attn_bias cfg buf B S (some a) bm =
      build_attn_bias cfg buf B S none bm := by
  unfold build_attn_bias
  cases hb : base_mask buf B S bm with
  | error e => rfl
  | ok mask => simp only [pad_mask_all_ones _ _ _ _ h, pad_mask_none]

/-- Witness for C10 with the all-ones mask `[[1, 1]]`. -/
theorem c10_witness :
    build_attn_bias Wcfg (initBuffers Wcfg) 1 2 (some [[1, 1]]) none =
      build_attn_bias Wcfg (initBuffers Wcfg) 1 2 none none :=
  c10_all_ones_equiv Wcfg (initBuffers Wcfg) 1 2 [[1, 1]] none (by decide)

/-- C2: when `build_attn_bias` succeeds with a bidirectional mask, any
two in-range positions q and k that are both marked in it (and not
masked as padding by the attention mask, when one is given) receive a
finite bias in both directions: the marked subset is mutually visible,
overriding pure causality. -/
theorem c2_bidirectional_mutual (cfg : Config) (buf : Buffers) (B S : ℕ)
    (am : Option (List (List ℕ))) (m : List (List ℕ)) (f : T4B) (b hd q k : ℕ)
    (hS : S ≤ cfg.max_seq_len) (hb : b < B) (hq : q < S) (hk : k < S)
    (hmq : entry m b q ≠ 0) (hmk : entry m b k ≠ 0)
    (hpad : ∀ a, am = some a → entry a b q ≠ 0 ∧ entry a b k ≠ 0)
    (h : build_attn_bias cfg buf B S am (some m) = Except.ok f) :
    f b hd q k ≠ BVal.negInf ∧ f b hd k q ≠ BVal.negInf := by
  by_cases hsh : shape2 m B S
  · rcases am with _ | a
    · simp only [build_attn_bias, base_mask_some_ok buf hsh, pad_mask_none,
        Except.ok.injEq] at h
      subst h
      constructor <;> simp [hmk, hmq]
    · by_cases hall : tensor_all a = true
      · simp only [build_attn_bias, base_mask_some_ok buf hsh,
          pad_mask_all_ones _ _ _ _ hall, Except.ok.injEq] at h
        subst h
        constructor <;> simp [hmk, hmq]
      · by_cases hsa : shape2 a B S
        · simp only [build_attn_bias, base_mask_some_ok buf hsh,
            pad_mask_not_all _ _ _ _ (Bool.eq_false_iff.mpr hall) hsa,
            Except.ok.injEq] at h
          subst h
          obtain ⟨haq, hak⟩ := hpad a rfl
          constructor <;> simp [hmk, hmq, haq, hak]
        · simp only [build_attn_bias, base_mask_some_ok buf hsh] at h
          simp [pad_mask, hall, hsa] at h
  · simp only [build_attn_bias] at h
    simp [base_mask, hsh] at h

/-- Witness for C2 at `Wcfg` with `bidirectional_mask = [[1, 1]]`,
positions 0 and 1. -/
theorem c2_witness : Wf2 0 0 0 1 ≠ BVal.negInf ∧ Wf2 0 0 1 0 ≠ BVal.negInf :=
  c2_bidirectional_mutual Wcfg (initBuffers Wcfg) 1 2 none [[1, 1]] Wf2 0 0 0 1
    (by decide) (by decide) (by decide) (by decide) (by decide) (by decide)
    (fun a ha => Option.noConfusion ha) rfl

/-- C3: when `build_attn_bias` succeeds with an attention mask that is
not all ones, every in-range key position whose attention-mask entry is
0 receives `-inf` from every query position of that batch element, and
every key position whose entry is nonzero keeps exactly the bias of the
same call without an attention mask (the causal/bidirectional
combination). -/
theorem c3_padding_mask (cfg : Config) (buf : Buffers) (B S : ℕ)
    (a : List (List ℕ)) (bm : Option (List (List ℕ))) (f g : T4B) (b hd q k : ℕ)
    (hS : S ≤ cfg.max_seq_len) (hb : b < B) (hq : q < S) (hk : k < S)
    (hall : tensor_all a = false)
    (h : build_attn_bias cfg buf B S (some a) bm = Except.ok f)
    (hg : build_attn_bias cfg buf B S none bm = Except.ok g) :
    (entry a b k = 0 → f b hd q k = BVal.negInf) ∧
      (entry a b k ≠ 0 → f b hd q k = g b hd q k) := by
  cases hbase : base_mask buf B S bm with
  | error e =>
    simp only [build_attn_bias, hbase] at h
    exact absurd h (by simp)
  | ok mask =>
    simp only [build_attn_bias, hbase, pad_mask_none, Except.ok.injEq] at hg
    subst hg
    by_cases hsa : shape2 a B S
    · simp only [build_attn_bias, hbase,
        pad_mask_not_all _ _ _ _ hall hsa, Except.ok.injEq] at h
      subst h
      constructor
      · intro h0; simp [h0]
      · intro h0; simp [h0]
    · simp only [build_attn_bias, hbase] at h
      simp [pad_mask, hall, hsa] at h

/-- Witness for C3 at `Wcfg` with `attention_mask = [[1, 0]]`, query 0,
key 1 (a padding key). -/
theorem c3_witness :
    (entry [[1, 0]] 0 1 = 0 → Wf3 0 0 0 1 = BVal.negInf) ∧
      (entry [[1, 0]] 0 1 ≠ 0 → Wf3 0 0 0 1 = Wf1 0 0 0 1) :=
  c3_padding_mask Wcfg (initBuffers Wcfg) 1 2 [[1, 0]] none Wf3 Wf1 0 0 0 1
    (by decide) (by decide) (by decide) (by decide) (by decide) rfl rfl

/-- C9: `MosaicModel.forward` fails the `seq_len <= max_seq_len`
assertion for every input whose sequence length exceeds
`cfg.max_seq_len`; under the precondition `S ≤ max_seq_len` that branch
is unreachable, the forward pass (with no masks) succeeds, and every
sequence index read from the `[:S, :S]` buffer slices is inside the
`max_seq_len`-sized buffers. -/
theorem c9_seq_len_assertion (cfg : Config) (p : Params) (prim : Primitives)
    (buf : Buffers) (input_ids : List (List ℕ)) :
    (cfg.max_seq_len < (input_ids.getD 0 []).length →
      forward cfg p prim buf input_ids none none none =
        Except.error "Cannot forward input: seq_len exceeds max_seq_len") ∧
    ((input_ids.getD 0 []).length ≤ cfg.max_seq_len →
      (∃ out, forward cfg p prim buf input_ids none none none = Except.ok out) ∧
        ∀ q < (input_ids.getD 0 []).length, q < cfg.max_seq_len) := by
  constructor
  · intro hlt
    simp only [forward, hidden_states, Nat.not_le.mpr hlt, if_false]
  · intro hle
    refine ⟨?_, fun q hq => lt_of_lt_of_le hq hle⟩
    simp only [forward, hidden_states, if_pos hle]
    exact ⟨_, rfl⟩

/-- Witness for C9: a 3-token input overruns `max_seq_len = 2` and a
1-token input goes through. -/
theorem c9_witness :
    (forward Wcfg Wp Wprim (initBuffers Wcfg) [[0, 0, 0]] none none none =
      Except.error "Cannot forward input: seq_len exceeds max_seq_len") ∧
    ∃ out, forward Wcfg Wp Wprim (initBuffers Wcfg) [[0]] none none none =
      Except.ok out :=
  ⟨(c9_seq_len_assertion Wcfg Wp Wprim (initBuffers Wcfg) [[0, 0, 0]]).1 (by decide),
    ((c9_seq_len_assertion Wcfg Wp Wprim (initBuffers Wcfg) [[0]]).2 (by decide)).1⟩

/-- C4: the output vocabulary projection reuses the token-embedding
matrix.  Whenever `forward` returns, its logits are exactly the final
hidden states multiplied by the transpose of `p.wte` — the same tensor
that embeds the input tokens — with no bias term (both without and with
the `loss_generating_tokens` row selection), and the transformer module
dict allocates no module besides the embeddings, dropout, blocks and
final norm: there is no separate output-projection parameter. -/
theorem c4_weight_tying (cfg : Config) (p : Params) (prim : Primitives)
    (buf : Buffers) (input_ids : List (List ℕ))
    (am bm lgt : Option (List (List ℕ))) (x : T3) (ab : T4B) (out : ForwardOut)
    (hs : hidden_states cfg p prim buf input_ids am bm = Except.ok (x, ab))
    (hf : forward cfg p prim buf input_ids am bm lgt = Except.ok out) :
    (lgt = none →
      out.logits = Act.full (fun b s v =>
        ∑ d ∈ Finset.range cfg.d_model, x b s d * p.wte v d)) ∧
    (∀ l, lgt = some l →
      out.logits = Act.sel (fun n v =>
        ∑ d ∈ Finset.range cfg.d_model,
          x ((selected_positions input_ids.length (input_ids.getD 0 []).length l).getD n (0, 0)).1
            ((selected_positions input_ids.length (input_ids.getD 0 []).length l).getD n (0, 0)).2 d
            * p.wte v d)) ∧
    (∀ name ∈ transformer_module_names cfg,
      name = "wte" ∨ name = "wpe" ∨ name = "emb_drop" ∨
        name = "blocks" ∨ name = "ln_f") := by
  refine ⟨?_, ?_, ?_⟩
  · intro hnone
    subst hnone
    simp only [forward, hs, Except.ok.injEq] at hf
    subst hf
    rfl
  · intro l hl
    subst hl
    simp only [forward, hs] at hf
    split at hf
    · simp only [Except.ok.injEq] at hf
      subst hf
      rfl
    · exact absurd hf (by simp)
  · intro name hname
    cases halibi : cfg.alibi <;>
      simp [transformer_module_names, halibi] at hname <;> tauto

/-- Witness for C4: the fixture forward pass with no masks. -/
theorem c4_witness :
    (none = (none : Option (List (List ℕ))) →
      Wout4.logits = Act.full (fun b s v =>
        ∑ d ∈ Finset.range Wcfg4.d_model, Wx b s d * Wp.wte v d)) ∧
    (∀ l, (none : Option (List (List ℕ))) = some l →
      Wout4.logits = Act.sel (fun n v =>
        ∑ d ∈ Finset.range Wcfg4.d_model,
          Wx ((selected_positions (List.length [[0]]) (List.length (List.getD [[0]] 0 [])) l).getD n (0, 0)).1
            ((selected_positions (List.length [[0]]) (List.length (List.getD [[0]] 0 [])) l).getD n (0, 0)).2 d
            * Wp.wte v d)) ∧
    (∀ name ∈ transformer_module_names Wcfg4,
      name = "wte" ∨ name = "wpe" ∨ name = "emb_drop" ∨
        name = "blocks" ∨ name = "ln_f") :=
  c4_weight_tying Wcfg4 Wp Wprim (initBuffers Wcfg4) [[0]] none none none
    Wx Wab Wout4 rfl rfl

/-- C6: the embedding-fraction expression
`x * f + x.detach() * (1 - f)` keeps the forward value of the embedding
activations unchanged while scaling the gradient flowing back through
the embedding by the fixed factor `f`, and when `f = 1`
`MosaicModel.forward` skips the transformation entirely. -/
theorem c6_embedding_fraction (f : ℚ) (x : Dual) (h0 : 0 < f) (h1 : f ≤ 1) :
    ((embedding_fraction_dual f x).val = x.val ∧
      (embedding_fraction_dual f x).grad = f * x.grad) ∧
    (∀ (xt : T3) (b s d : ℕ), embedding_fraction_transform f xt b s d = xt b s d) ∧
    (∀ (cfg : Config) (drop : T3 → T3) (xt : T3),
      cfg.embedding_fraction = 1 → embedding_step cfg drop xt = drop xt) := by
  refine ⟨⟨?_, ?_⟩, ?_, ?_⟩
  · simp [embedding_fraction_dual, Dual.add, Dual.smul, Dual.detach]
    ring
  · simp [embedding_fraction_dual, Dual.add, Dual.smul, Dual.detach]
  · intro xt b s d
    simp [embedding_fraction_transform]
    ring
  · intro cfg drop xt hcfg
    simp [embedding_step, hcfg]

/-- Witness for C6 at `f = 1/2` on the activation `(3, 5)`. -/
theorem c6_witness :
    ((embedding_fraction_dual (1/2) ⟨3, 5⟩).val = (Dual.mk 3 5).val ∧
      (embedding_fraction_dual (1/2) ⟨3, 5⟩).grad = (1/2) * (Dual.mk 3 5).grad) ∧
    (∀ (xt : T3) (b s d : ℕ),
      embedding_fraction_transform (1/2) xt b s d = xt b s d) ∧
    (∀ (cfg : Config) (drop : T3 → T3) (xt : T3),
      cfg.embedding_fraction = 1 → embedding_step cfg drop xt = drop xt) :=
  c6_embedding_fraction (1/2) ⟨3, 5⟩ (by norm_num) (by norm_num)

/-- Every successful `forward` call returns the buffer state it was
given: the pipeline only reads the buffers. -/
theorem forward_preserves_buffers (cfg : Config) (p : Params)
    (prim : Primitives) (buf : Buffers) (input_ids : List (List ℕ))
    (am bm lgt : Option (List (List ℕ))) (out : ForwardOut)
    (h : forward cfg p prim buf input_ids am bm lgt = Except.ok out) :
    out.buffers = buf := by
  cases hhs : hidden_states cfg p prim buf input_ids am bm with
  | error e => simp [forward, hhs] at h
  | ok xab =>
    obtain ⟨x, ab⟩ := xab
    rcases lgt with _ | l
    · simp only [forward, hhs, Except.ok.injEq] at h
      subst h
      rfl
    · simp only [forward, hhs] at h
      split at h
      · simp only [Except.ok.injEq] at h
        subst h
        rfl
      · exact absurd h (by simp)

/-- C7 counterexample: `MosaicModel.__init__` registers three buffers
(`alibi_mask`, `zeros_mask`, `causal_mask`), not exactly two. -/
theorem c7_counterexample :
    registered_buffer_names.length = 3 ∧ registered_buffer_names.length ≠ 2 := by
  decide

/-- C7 amended: the model holds no persistent state beyond its learned
parameters and exactly three precomputed buffer tensors (the alibi and
zeros bias templates and the causal boolean mask), and every forward
pass leaves the registered buffers unchanged. -/
theorem c7_buffers_amended :
    registered_buffer_names.length = 3 ∧
    ∀ (cfg : Config) (p : Params) (prim : Primitives) (buf : Buffers)
      (input_ids : List (List ℕ)) (am bm lgt : Option (List (List ℕ))),
      (forward cfg p prim buf input_ids am bm lgt).map ForwardOut.buffers =
        (forward cfg p prim buf input_ids am bm lgt).map (fun _ => buf) := by
  refine ⟨rfl, ?_⟩
  intro cfg p prim buf input_ids am bm lgt
  cases h : forward cfg p prim buf input_ids am bm lgt with
  | error e => rfl
  | ok out =>
    simp [Except.map, forward_preserves_buffers cfg p prim buf input_ids am bm lgt out h]

/-- C8: every access to `num_fwd_flops` returns
`2 * n_params * max_seq_len + n_layers * 4 * d_model * max_seq_len ^ 2`
(a parameter-MAC term plus a quadratic attention term): the first access
computes and caches it, and an access from any cache state produced by
an earlier access returns the same value again. -/
theorem c8_num_fwd_flops (cfg : Config) (n_params : ℕ) (c : Option ℕ) :
    (num_fwd_flops cfg n_params none).1 =
      2 * n_params * cfg.max_seq_len +
        cfg.n_layers * 4 * cfg.d_model * cfg.max_seq_len ^ 2 ∧
    (num_fwd_flops cfg n_params (num_fwd_flops cfg n_params c).2).1 =
      (num_fwd_flops cfg n_params c).1 := by
  constructor
  · show flops_value cfg n_params = _
    unfold flops_value
    ring
  · rcases c with _ | v
    · by_cases h0 : flops_value cfg n_params = 0 <;>
        simp [num_fwd_flops, h0]
    · by_cases hv : v = 0
      · subst hv
        by_cases h0 : flops_value cfg n_params = 0 <;>
          simp [num_fwd_flops, h0]
      · simp [num_fwd_flops, hv]

/-- Setting the final position of a snoc list rewrites exactly the last
element. -/
theorem set_last_append (t : List ℤ) (c v : ℤ) :
    (t ++ [c]).set ((t ++ [c]).length - 1) v = t ++ [v] := by
  induction t with
  | nil => rfl
  | cons a t ih =>
    have hl : (t ++ [c]).length - 1 = t.length := by simp
    rw [hl] at ih
    have h2 : ((a :: t) ++ [c]).length - 1 = t.length + 1 := by simp
    rw [h2]
    show a :: (t ++ [c]).set t.length v = a :: (t ++ [v])
    exact congrArg (List.cons a) ih

/-- Rolling the flattened rectangle left by one, restoring the shape and
overwriting the last entry of every row yields, row by row, the row's
tail followed by `-100`: generalized over the wrapped-around suffix
`ext`. -/
theorem reshape_tail : ∀ (x : List (List ℤ)) (ext : List ℤ),
    (∀ row ∈ x, row ≠ ([] : List ℤ)) → ext ≠ [] →
    (reshape_like x (x.flatten.drop 1 ++ ext)).map
        (fun row => row.set (row.length - 1) (-100))
      = x.map (fun row => row.tail ++ [-100]) := by
  intro x
  induction x with
  | nil => intro ext _ _; rfl
  | cons row rest ih =>
    intro ext hrows hext
    rcases row with _ | ⟨a, t⟩
    · exact absurd rfl (hrows [] (by simp))
    · have hflat : ((a :: t) :: rest).flatten.drop 1 ++ ext =
          t ++ (rest.flatten ++ ext) := by
        simp [List.append_assoc]
      have hne : rest.flatten ++ ext ≠ [] := by
        intro hcontra
        exact hext (List.append_eq_nil.mp hcontra).2
      obtain ⟨c, l2, hcl⟩ := List.exists_cons_of_ne_nil hne
      have htake : (t ++ (rest.flatten ++ ext)).take (a :: t).length = t ++ [c] := by
        rw [List.take_append_eq_append_take,
          List.take_of_length_le (by simp), hcl]
        congr 1
        have h1 : (a :: t).length - t.length = 1 := by simp
        rw [h1]
        rfl
      have hdrop : (t ++ (rest.flatten ++ ext)).drop (a :: t).length =
          (rest.flatten ++ ext).drop 1 := by
        rw [List.drop_append_eq_append_drop,
          List.drop_eq_nil_of_le (by simp)]
        have : (a :: t).length - t.length = 1 := by simp
        rw [this, List.nil_append]
      rw [hflat, reshape_like, htake, hdrop, List.map_cons,
        set_last_append, List.map_cons]
      rcases rest with _ | ⟨r1, rs⟩
      · rfl
      · have hr1 : r1 ≠ [] := hrows r1 (by simp)
        have h1 : 1 ≤ ((r1 :: rs).flatten).length := by
          have hfne : (r1 :: rs).flatten ≠ [] := by
            intro hcontra
            have h2 : r1 = [] ∧ ∀ l ∈ rs, l = ([] : List ℤ) := by
              simpa using hcontra
            exact hr1 h2.1
          have := List.length_pos.mpr hfne
          omega
        rw [List.drop_append_of_le_length h1,
          ih ext (fun r hr => hrows r (by simp [hr])) hext]
        rfl

/-- For a rectangular batch with rows of positive length `S`,
`get_targets` sends every row to its tail followed by `-100`: the target
at position `i` is the token at position `i + 1` and the final position
holds the ignore label. -/
theorem get_targets_eq (S : ℕ) (x : List (List ℤ)) (hS : 1 ≤ S)
    (hrect : ∀ row ∈ x, row.length = S) :
    get_targets x = x.map (fun row => row.tail ++ [-100]) := by
  rcases x with _ | ⟨r, rs⟩
  · rfl
  · have hrows : ∀ row ∈ (r :: rs), row ≠ ([] : List ℤ) := by
      intro row hrow h0
      have := hrect row hrow
      rw [h0] at this
      simp at this
      omega
    have hrne : r ≠ [] := hrows r (by simp)
    have hflatne : ((r :: rs).flatten) ≠ [] := by
      intro hcontra
      have h2 : r = [] ∧ ∀ l ∈ rs, l = ([] : List ℤ) := by
        simpa using hcontra
      exact hrne h2.1
    have hext : ((r :: rs).flatten).take 1 ≠ [] := by
      obtain ⟨c, l2, hcl⟩ := List.exists_cons_of_ne_nil hflatne
      rw [hcl]
      simp
    have := reshape_tail (r :: rs) (((r :: rs).flatten).take 1) hrows hext
    simpa [get_targets] using this

/-- Positions whose target equals the ignore index play no role in the
filtered (output, target) pairs fed to the loss kernel. -/
theorem zip_filter_congr (o1 : List (List ℚ)) : ∀ (o2 : List (List ℚ)) (ts : List ℤ),
    o1.length = o2.length →
    (∀ j, j < ts.length → ts.getD j 0 ≠ -100 → o1.getD j [] = o2.getD j []) →
    (o1.zip ts).filter (fun pr => pr.2 != -100) =
      (o2.zip ts).filter (fun pr => pr.2 != -100) := by
  induction o1 with
  | nil =>
    intro o2 ts hlen _
    cases o2 with
    | nil => rfl
    | cons b o2t => simp at hlen
  | cons a o1t ih =>
    intro o2 ts hlen hagree
    cases o2 with
    | nil => simp at hlen
    | cons b o2t =>
      cases ts with
      | nil => rfl
      | cons tt tst =>
        have hrest := ih o2t tst (by simpa using hlen)
          (fun j hj hne => hagree (j + 1) (by simpa using Nat.succ_lt_succ hj)
            (by simpa using hne))
        by_cases ht : tt = -100
        · subst ht
          simpa [List.filter] using hrest
        · have hab : a = b := hagree 0 (by simp) (by simpa using ht)
          subst hab
          simp only [List.zip_cons_cons, List.filter_cons]
          rw [hrest]

/-- C5: for a batch without labels, `get_targets` returns the input ids
shifted left by one position with the final position of each sequence
set to the ignore label `-100`; `loss` is the cross-entropy of the
logits against these targets with `ignore_index = -100`; and positions
whose target is the ignore label contribute nothing to the loss (the
loss is unchanged under any change of the logits at ignored
positions). -/
theorem c5_targets_and_loss :
    (∀ (S : ℕ) (x : List (List ℤ)), 1 ≤ S → (∀ row ∈ x, row.length = S) →
      get_targets x = x.map (fun row => row.tail ++ [-100])) ∧
    (∀ (nll : List ℚ → ℤ → ℚ) (outputs : List (List (List ℚ)))
      (input_ids : List (List ℤ)),
      outputs.length = (get_targets input_ids).length →
      loss nll outputs input_ids =
        Except.ok (cross_entropy nll outputs.flatten
          (get_targets input_ids).flatten (-100))) ∧
    (∀ (nll : List ℚ → ℤ → ℚ) (o1 o2 : List (List ℚ)) (ts : List ℤ),
      o1.length = o2.length →
      (∀ j, j < ts.length → ts.getD j 0 ≠ -100 → o1.getD j [] = o2.getD j []) →
      cross_entropy nll o1 ts (-100) = cross_entropy nll o2 ts (-100)) := by
  refine ⟨fun S x hS hrect => get_targets_eq S x hS hrect, ?_, ?_⟩
  · intro nll outputs input_ids hlen
    simp [loss, hlen]
  · intro nll o1 o2 ts hlen hagree
    unfold cross_entropy
    rw [zip_filter_congr o1 o2 ts hlen hagree]

/-- Witness for C5: a 2 x 2 batch for the shift, a concrete loss call,
and an ignored position whose logits do not matter. -/
theorem c5_witness :
    get_targets [[(1 : ℤ), 2], [3, 4]] =
      [[(1 : ℤ), 2], [3, 4]].map (fun row => row.tail ++ [-100]) ∧
    loss (fun _ _ => (0 : ℚ)) [[[1], [2]]] [[5, 6]] =
      Except.ok (cross_entropy (fun _ _ => (0 : ℚ)) [[[(1 : ℚ)], [2]]].flatten
        (get_targets [[(5 : ℤ), 6]]).flatten (-100)) ∧
    cross_entropy (fun _ _ => (0 : ℚ)) [[1]] [-100] (-100) =
      cross_entropy (fun _ _ => (0 : ℚ)) [[2]] [-100] (-100) :=
  ⟨c5_targets_and_loss.1 2 [[1, 2], [3, 4]] (by norm_num) (by decide),
    c5_targets_and_loss.2.1 (fun _ _ => 0) [[[1], [2]]] [[5, 6]] (by decide),
    c5_targets_and_loss.2.2 (fun _ _ => 0) [[1]] [[2]] [-100] rfl
      (by
        intro j hj hne
        have hj1 : j < 1 := by simpa using hj
        have hj0 : j = 0 := by omega
        subst hj0
        simp at hne)⟩
